import Mathlib

/-
  Verification of the trust token loader (src/trust/token.c) against its
  natural-language specification.

  The development is a shallow embedding: the stateful C code is translated
  into pure Lean functions over an explicit token state (FileState cache +
  index contents), with the filesystem, the parser and the index success
  oracle supplied as an explicit world record.  External collaborators that
  are not part of the given sources (p11_dict, p11_index, p11_path, p11_attrs)
  are modelled from the specification; every such definition is marked.
-/

/-- A stat snapshot: exactly the three fields token.c compares
(`st_mode`, `st_mtime`, `st_size`). -/
structure StatSnap where
  st_mode : Nat
  st_mtime : Nat
  st_size : Nat
deriving DecidableEq, Repr

/-- Outcome class of a failed stat call: `ENOENT` versus any other errno. -/
inductive StatErr
  | enoent
  | other
deriving DecidableEq, Repr

/-- C's `S_ISDIR` on `st_mode`: the file-type nibble equals `S_IFDIR` (0x4000). -/
def S_ISDIR (m : Nat) : Bool := m &&& 0xF000 == 0x4000

/-- Parse flags passed to the parser (P11_PARSE_FLAG_NONE / ANCHOR / BLACKLIST). -/
inductive ParseFlag
  | noflag
  | anchor
  | blacklist
deriving DecidableEq, Repr

/-- Result of `p11_parse_file`: success with parsed objects, unrecognized
format, or any other (failure) return. -/
inductive ParseResult
  | success (objs : List Nat)
  | unrecognized
  | failure
deriving DecidableEq, Repr

/-- A trust object held by the index: its origin tag (none for the builtin
synthetic object), its modifiable flag and an opaque payload standing for the
attributes produced by the parser. -/
structure TrustObject where
  origin : Option String
  modifiable : Bool
  payload : Nat
deriving DecidableEq, Repr

/-- Modelled from the spec: the FileState cache (`token->loaded`, a
`p11_dict` from path to stat snapshot, §4.2) as an association list. -/
abbrev Cache := List (String × StatSnap)

/-- Modelled from the spec: dictionary lookup (`p11_dict_get`). -/
def cacheGet : Cache → String → Option StatSnap
  | [], _ => none
  | kv :: t, k => if kv.1 = k then some kv.2 else cacheGet t k

/-- Modelled from the spec: dictionary removal (`p11_dict_remove`). -/
def cacheRemove : Cache → String → Cache
  | [], _ => []
  | kv :: t, k => if kv.1 = k then cacheRemove t k else kv :: cacheRemove t k

/-- Modelled from the spec: dictionary overwrite (`p11_dict_set`). -/
def cacheSet (c : Cache) (k : String) (v : StatSnap) : Cache :=
  (k, v) :: cacheRemove c k

/-- Modelled from the spec: removal from the `present` string set
(`p11_dict_remove` on a keys-only dict). -/
def removeStr : List String → String → List String
  | [], _ => []
  | s :: t, k => if s = k then removeStr t k else s :: removeStr t k

/-- Modelled from the spec: `p11_path_build (dir, name, NULL)` from path.c
(not under src/): join with a separator. -/
def p11_path_build (dir name : String) : String := dir ++ "/" ++ name

/-- Modelled from the spec: the path-lies-under test from path.c (not under
src/); per §4.1 a path lies under a root when the root followed by the
separator is a leading part of the path. -/
def p11_path_under (path root : String) : Bool :=
  List.isPrefixOf (root.data ++ ['/']) path.data

/-- The environment of one scan: filesystem stat and listing, the external
parser (modelled from the spec § "Collaborator interfaces": path and flag to
result), and the index success oracle for replace-all-by-origin. -/
structure FsWorld where
  stat : String → Except StatErr StatSnap
  listdir : String → Option (List String)
  parse : String → ParseFlag → ParseResult
  replaceOk : String → Bool

/-- The token's configured roots (`token->path`, `token->anchors`,
`token->blacklist`). -/
structure TokenCfg where
  path : String
  anchors : String
  blacklist : String
deriving DecidableEq, Repr

/-- The mutable token state the loader manipulates: the FileState cache and
the index contents. -/
structure TokenState where
  loaded : Cache
  index : List TrustObject
deriving DecidableEq, Repr

/-- Observable index/parser events emitted during a load, for stating the
batching discipline and parser-invocation claims. -/
inductive Event
  | batch
  | finish
  | replaceAll (origin : String) (objs : List TrustObject)
  | parseCall (path : String)
deriving DecidableEq, Repr

/-- Messages emitted through `p11_message`, by call site. -/
inductive LogMsg
  | couldntStatPath (path : String)
  | couldntListDirectory (dir : String)
  | couldntLoadFile (filename : String)
  | cannotAccessPath (path : String)
  | cannotAccessTrustFile (origin : String)
deriving DecidableEq, Repr

/-- Result of one loader call: the new token state, the integer return value,
the emitted index/parser events and the emitted messages. -/
structure LoadR where
  st : TokenState
  ret : Int
  evs : List Event
  msgs : List LogMsg
deriving DecidableEq, Repr

/-- Modelled from the spec: `p11_index_replace_all` from index.c (not under
src/); per §4.4 it removes every object whose origin equals the given origin
and inserts the replacement objects, or fails leaving the index unchanged. -/
def index_replace_all (w : FsWorld) (index : List TrustObject) (origin : String)
    (objs : List TrustObject) : List TrustObject × Bool :=
  if w.replaceOk origin then
    ((index.filter fun o => o.origin != some origin) ++ objs, true)
  else (index, false)

/-- `loader_is_necessary` from token.c: a file needs loading when it has no
cached snapshot or any of mode, mtime, size differs from the cached one. -/
def loader_is_necessary (loaded : Cache) (filename : String) (sb : StatSnap) : Bool :=
  match cacheGet loaded filename with
  | none => true
  | some last =>
      sb.st_mode != last.st_mode || sb.st_mtime != last.st_mtime ||
        sb.st_size != last.st_size

/-- `loader_was_loaded` from token.c: record the file's snapshot in the cache. -/
def loader_was_loaded (st : TokenState) (filename : String) (sb : StatSnap) : TokenState :=
  { st with loaded := cacheSet st.loaded filename sb }

/-- `loader_not_loaded` from token.c: drop the file's cache entry. -/
def loader_not_loaded (st : TokenState) (filename : String) : TokenState :=
  { st with loaded := cacheRemove st.loaded filename }

/-- `loader_gone_file` from token.c: replace everything at this origin with
nothing, then (only if the index call succeeded, per `return_if_fail`) drop
the cache entry.  Note the source brackets this replace-all with no
batch/finish pair. -/
def loader_gone_file (w : FsWorld) (st : TokenState) (filename : String) :
    TokenState × List Event :=
  let r := index_replace_all w st.index filename []
  if r.2 then
    ({ loaded := cacheRemove st.loaded filename, index := r.1 },
     [Event.replaceAll filename []])
  else ({ st with index := r.1 }, [Event.replaceAll filename []])

/-- The parse-flag classification inside `loader_load_file` (lines 171-183):
anchors subdirectory, else blacklist subdirectory, else the token's own
single-file path. -/
def loaderFlags (cfg : TokenCfg) (filename : String) (sb : StatSnap) : ParseFlag :=
  if p11_path_under filename cfg.anchors then ParseFlag.anchor
  else if p11_path_under filename cfg.blacklist then ParseFlag.blacklist
  else if filename == cfg.path && !(S_ISDIR sb.st_mode) then ParseFlag.anchor
  else ParseFlag.noflag

/-- `loader_load_file` from token.c: skip when unnecessary; otherwise parse,
treating unrecognized/failed parses as gone; on success stamp every object
with the origin and modifiable=false and replace all objects of that origin
inside a batch/finish bracket; update the cache only when the index succeeds. -/
def loader_load_file (w : FsWorld) (cfg : TokenCfg) (st : TokenState)
    (filename : String) (sb : StatSnap) : LoadR :=
  if !(loader_is_necessary st.loaded filename sb) then ⟨st, 0, [], []⟩
  else
    let flags := loaderFlags cfg filename sb
    let after : LoadR :=
      match w.parse filename flags with
      | ParseResult.unrecognized =>
          let g := loader_gone_file w st filename
          ⟨g.1, 0, g.2, []⟩
      | ParseResult.failure =>
          let g := loader_gone_file w st filename
          ⟨g.1, 0, g.2, []⟩
      | ParseResult.success objs =>
          let stamped := objs.map fun p => TrustObject.mk (some filename) false p
          let r := index_replace_all w st.index filename stamped
          let evs := [Event.batch, Event.replaceAll filename stamped, Event.finish]
          if r.2 then
            ⟨loader_was_loaded { st with index := r.1 } filename sb, 1, evs, []⟩
          else
            ⟨{ st with index := r.1 }, 0, evs, [LogMsg.couldntLoadFile filename]⟩
    ⟨after.st, after.ret, Event.parseCall filename :: after.evs, after.msgs⟩

/-- `loader_load_if_file` from token.c: stat the path; on stat failure the
source logs exactly when errno is ENOENT (lines 233-237); a non-directory is
loaded as a file; every other outcome falls through to the gone handling. -/
def loader_load_if_file (w : FsWorld) (cfg : TokenCfg) (st : TokenState)
    (path : String) : LoadR :=
  match w.stat path with
  | Except.error e =>
      let msgs := if e = StatErr.enoent then [LogMsg.couldntStatPath path] else []
      let g := loader_gone_file w st path
      ⟨g.1, 0, g.2, msgs⟩
  | Except.ok sb =>
      if !(S_ISDIR sb.st_mode) then loader_load_file w cfg st path sb
      else
        let g := loader_gone_file w st path
        ⟨g.1, 0, g.2, []⟩

/-- The readdir loop of `loader_load_directory` (lines 270-282): load each
entry's built path as a file and remove it from the `present` set.  The
allocation-failure guards (`return_val_if_fail`) are unreachable here. -/
def loadDirLoop (w : FsWorld) (cfg : TokenCfg) (dir : String) :
    TokenState → List String → List String → LoadR × List String
  | st, present, [] => (⟨st, 0, [], []⟩, present)
  | st, present, name :: rest =>
      let path := p11_path_build dir name
      let r := loader_load_if_file w cfg st path
      let present2 := removeStr present path
      let k := loadDirLoop w cfg dir r.st present2 rest
      (⟨k.1.st, r.ret + k.1.ret, r.evs ++ k.1.evs, r.msgs ++ k.1.msgs⟩, k.2)

/-- The trailing loop of `loader_load_directory` (lines 287-289): every path
still in `present` is treated as gone. -/
def goneLoop (w : FsWorld) : TokenState → List String → TokenState × List Event
  | st, [] => (st, [])
  | st, p :: rest =>
      let g := loader_gone_file w st p
      let k := goneLoop w g.1 rest
      (k.1, g.2 ++ k.2)

/-- `loader_load_directory` from token.c: list the directory (dropping the
directory's own cache entry on listing failure), load every entry, then treat
every unseen previously-present path as gone. -/
def loader_load_directory (w : FsWorld) (cfg : TokenCfg) (st : TokenState)
    (directory : String) (present : List String) : LoadR :=
  match w.listdir directory with
  | none =>
      ⟨loader_not_loaded st directory, 0, [], [LogMsg.couldntListDirectory directory]⟩
  | some entries =>
      let k := loadDirLoop w cfg directory st present entries
      let g := goneLoop w k.1.st k.2
      ⟨g.1, k.1.ret, k.1.evs ++ g.2, k.1.msgs⟩

/-- The fallback loop of `loader_load_path` (lines 331-339): re-check each
previously-present file individually.  The loop accumulates the per-file
results into `total` (the second component) but the surrounding function
returns `ret`, the value of the last iteration; the C variable `ret` is
uninitialized when the loop body never runs, modelled here as 0. -/
def loadFallbackLoop (w : FsWorld) (cfg : TokenCfg) :
    TokenState → List String → LoadR × Int
  | st, [] => (⟨st, 0, [], []⟩, 0)
  | st, fn :: rest =>
      let r := loader_load_if_file w cfg st fn
      let k := loadFallbackLoop w cfg r.st rest
      let retLast := if rest.isEmpty then r.ret else k.1.ret
      (⟨k.1.st, retLast, r.evs ++ k.1.evs, r.msgs ++ k.1.msgs⟩, r.ret + k.2)

/-- The previously-present set built at the top of `loader_load_path`
(lines 317-324): every tracked path lying under the given root. -/
def presentOf : Cache → String → List String
  | [], _ => []
  | kv :: t, path =>
      if p11_path_under kv.1 path then kv.1 :: presentOf t path
      else presentOf t path

/-- `loader_load_path` from token.c: a missing root is gone (logged unless
ENOENT); a directory root is either fully rescanned (when its own snapshot
changed) or re-checked per tracked file, recording the directory snapshot
afterwards; a plain-file root is loaded directly. -/
def loader_load_path (w : FsWorld) (cfg : TokenCfg) (st : TokenState)
    (path : String) : LoadR :=
  match w.stat path with
  | Except.error e =>
      let msgs := if e = StatErr.enoent then [] else [LogMsg.cannotAccessPath path]
      let g := loader_gone_file w st path
      ⟨g.1, 0, g.2, msgs⟩
  | Except.ok sb =>
      if S_ISDIR sb.st_mode then
        let present := presentOf st.loaded path
        if loader_is_necessary st.loaded path sb then
          let r := loader_load_directory w cfg st path present
          ⟨loader_was_loaded r.st path sb, r.ret, r.evs, r.msgs⟩
        else
          let k := loadFallbackLoop w cfg st present
          ⟨loader_was_loaded k.1.st path sb, k.1.ret, k.1.evs, k.1.msgs⟩
      else loader_load_file w cfg st path sb

/-- `p11_token_load` from token.c: scan the three roots in the fixed order
path, anchors, blacklist, accumulating the returned counts.  The
`return_val_if_fail (ret >= 0, -1)` guards fire only on unreachable
allocation failures and are never taken in this model. -/
def p11_token_load (w : FsWorld) (cfg : TokenCfg) (st : TokenState) : LoadR :=
  let r1 := loader_load_path w cfg st cfg.path
  let r2 := loader_load_path w cfg r1.st cfg.anchors
  let r3 := loader_load_path w cfg r2.st cfg.blacklist
  ⟨r3.st, r1.ret + r2.ret + r3.ret, r1.evs ++ r2.evs ++ r3.evs,
   r1.msgs ++ r2.msgs ++ r3.msgs⟩

/-- Modelled from the spec: the vendor origin attribute tag (pkcs11x.h, not
under src/); the numeric value is irrelevant, only its identity as a key. -/
def CKA_X_ORIGIN : Nat := 2

/-- Modelled from the spec: `p11_attrs_find` from attrs.c (not under src/);
first attribute with the given type. -/
def p11_attrs_find : List (Nat × String) → Nat → Option String
  | [], _ => none
  | a :: rest, t => if a.1 = t then some a.2 else p11_attrs_find rest t

/-- `p11_token_reload` from token.c: extract the origin attribute (absent:
no-op); stat it (ENOENT: gone; other failure: log only; success: load that
single file). -/
def p11_token_reload (w : FsWorld) (cfg : TokenCfg) (st : TokenState)
    (attrs : List (Nat × String)) : TokenState × List Event × List LogMsg :=
  match p11_attrs_find attrs CKA_X_ORIGIN with
  | none => (st, [], [])
  | some origin =>
      match w.stat origin with
      | Except.error e =>
          if e = StatErr.enoent then
            let g := loader_gone_file w st origin
            (g.1, g.2, [])
          else (st, [], [LogMsg.cannotAccessTrustFile origin])
      | Except.ok sb =>
          let r := loader_load_file w cfg st origin sb
          (r.st, r.evs, r.msgs)

/-- The full token record behind `p11_token *`; a NULL pointer is `none`. -/
structure P11TokenData where
  st : TokenState
  path : String
  anchors : String
  blacklist : String
  label : String
  slot : Nat
deriving Repr

/-- `p11_token_get_label` from token.c, with `return_val_if_fail` on NULL. -/
def p11_token_get_label : Option P11TokenData → Option String
  | none => none
  | some t => some t.label

/-- `p11_token_get_path` from token.c, with `return_val_if_fail` on NULL. -/
def p11_token_get_path : Option P11TokenData → Option String
  | none => none
  | some t => some t.path

/-- `p11_token_get_slot` from token.c, returning 0 on NULL. -/
def p11_token_get_slot : Option P11TokenData → Nat
  | none => 0
  | some t => t.slot

/-- `p11_token_index` from token.c, with `return_val_if_fail` on NULL. -/
def p11_token_index : Option P11TokenData → Option (List TrustObject)
  | none => none
  | some t => some t.st.index

/-- Scan of an event list checking that every replace-all happens while at
least one batch is open; the first argument is the current batch depth. -/
def wellBatchedFrom : Nat → List Event → Bool
  | _, [] => true
  | d, Event.batch :: t => wellBatchedFrom (d + 1) t
  | d, Event.finish :: t => wellBatchedFrom (d - 1) t
  | d, Event.replaceAll _ _ :: t => decide (0 < d) && wellBatchedFrom d t
  | d, Event.parseCall _ :: t => wellBatchedFrom d t

/-- Every replace-all in the trace lies between a batch and a finish. -/
def wellBatched (t : List Event) : Bool := wellBatchedFrom 0 t

/-- The state holds nothing for an origin: no index object carries it and the
cache has no entry for it. -/
def originAbsent (st : TokenState) (f : String) : Prop :=
  (∀ o ∈ st.index, o.origin ≠ some f) ∧ cacheGet st.loaded f = none

instance (st : TokenState) (f : String) : Decidable (originAbsent st f) := by
  unfold originAbsent; infer_instance

/- Concrete inputs used by the claim theorems below. -/

/-- A directory snapshot (mode 040755). -/
def sbDir0 : StatSnap := ⟨0x41ED, 100, 4096⟩

/-- A regular-file snapshot (mode 0100644). -/
def sbFile0 : StatSnap := ⟨0x81A4, 200, 10⟩

/-- An older regular-file snapshot differing from `sbFile0` in mtime. -/
def sbFile0old : StatSnap := ⟨0x81A4, 150, 10⟩

/-- Concrete roots for a token at `/t`. -/
def cfg0 : TokenCfg := ⟨"/t", "/t/anchors", "/t/blacklist"⟩

/-- World for C1: index replacement always succeeds, one parseable file. -/
def wC1 : FsWorld where
  stat := fun _ => Except.error StatErr.enoent
  listdir := fun _ => none
  parse := fun _ _ => ParseResult.success [7]
  replaceOk := fun _ => true

/-- State for C1: one tracked file with one index object. -/
def stC1 : TokenState :=
  ⟨[("/t/f", sbFile0old)], [⟨some "/t/f", false, 5⟩]⟩

/-- C1: the claim that every replace-all-by-origin for one origin — both the
ingest in loader_load_file and the deletion in loader_gone_file — occurs
between p11_index_batch and p11_index_finish fails on the code: at a concrete
gone file, loader_gone_file emits its replace-all with no batch open, while
loader_load_file's replace-all is properly bracketed. -/
theorem c1_gone_file_replace_not_batched :
    (loader_gone_file wC1 stC1 "/t/f").2 = [Event.replaceAll "/t/f" []] ∧
    wellBatched (loader_gone_file wC1 stC1 "/t/f").2 = false ∧
    wellBatched (loader_load_file wC1 cfg0 stC1 "/t/f" sbFile0).evs = true := by
  decide

/-- C10: every public accessor is total on a NULL token: label, path and
index accessors return NULL and the slot accessor returns 0. -/
theorem c10_null_token_accessors :
    p11_token_get_label none = none ∧ p11_token_get_path none = none ∧
    p11_token_index none = none ∧ p11_token_get_slot none = 0 :=
  ⟨rfl, rfl, rfl, rfl⟩

/-- World for C6 where every stat fails with ENOENT. -/
def wC6a : FsWorld where
  stat := fun _ => Except.error StatErr.enoent
  listdir := fun _ => none
  parse := fun _ _ => ParseResult.unrecognized
  replaceOk := fun _ => true

/-- World for C6 where every stat fails with an errno other than ENOENT. -/
def wC6b : FsWorld where
  stat := fun _ => Except.error StatErr.other
  listdir := fun _ => none
  parse := fun _ _ => ParseResult.unrecognized
  replaceOk := fun _ => true

/-- State for C6: `/x` is tracked and has one index object. -/
def stC6 : TokenState := ⟨[("/x", sbFile0old)], [⟨some "/x", false, 3⟩]⟩

/-- C6: the claim that a failed stat is logged exactly when the error is not
ENOENT fails on the code: loader_load_if_file logs the message exactly when
errno is ENOENT and is silent on other errors (the polarity is inverted);
the gone treatment and zero return do hold in both cases. -/
theorem c6_enoent_logging_inverted :
    (loader_load_if_file wC6a cfg0 stC6 "/x").msgs = [LogMsg.couldntStatPath "/x"] ∧
    (loader_load_if_file wC6b cfg0 stC6 "/x").msgs = [] ∧
    (loader_load_if_file wC6a cfg0 stC6 "/x").ret = 0 ∧
    (loader_load_if_file wC6b cfg0 stC6 "/x").ret = 0 ∧
    originAbsent (loader_load_if_file wC6a cfg0 stC6 "/x").st "/x" ∧
    originAbsent (loader_load_if_file wC6b cfg0 stC6 "/x").st "/x" := by
  decide

/-- An older snapshot of a second file, differing from its current stat. -/
def sbFileB0 : StatSnap := ⟨0x81A4, 210, 20⟩

/-- Its older cached snapshot. -/
def sbFileB0old : StatSnap := ⟨0x81A4, 160, 20⟩

/-- World for C4: the root `/t` is a directory with an unchanged snapshot and
the two tracked files under it both changed; the other roots are missing. -/
def wC4 : FsWorld where
  stat := fun p =>
    if p = "/t" then Except.ok sbDir0
    else if p = "/t/a" then Except.ok sbFile0
    else if p = "/t/b" then Except.ok sbFileB0
    else Except.error StatErr.enoent
  listdir := fun _ => none
  parse := fun _ _ => ParseResult.success [7]
  replaceOk := fun _ => true

/-- State for C4: the directory and both files are tracked with stale
snapshots for the files. -/
def stC4 : TokenState :=
  ⟨[("/t", sbDir0), ("/t/a", sbFile0old), ("/t/b", sbFileB0old)], []⟩

/-- C4: the claim that p11_token_load returns the accumulated total of
per-file change counts fails on the code: on the fallback branch the loop
accumulates the per-file counts into `total` (here 2: both files changed and
were re-ingested) but loader_load_path returns `ret`, the last iteration's
count, so p11_token_load returns 1. -/
theorem c4_fallback_total_discarded :
    (p11_token_load wC4 cfg0 stC4).ret = 1 ∧
    (loadFallbackLoop wC4 cfg0 stC4 (presentOf stC4.loaded "/t")).2 = 2 ∧
    loader_is_necessary stC4.loaded "/t/a" sbFile0 = true ∧
    loader_is_necessary stC4.loaded "/t/b" sbFileB0 = true ∧
    loader_is_necessary stC4.loaded "/t" sbDir0 = false := by
  decide

/- Helper lemmas about the modelled dictionary and list operations. -/

theorem cacheGet_remove_self (c : Cache) (f : String) :
    cacheGet (cacheRemove c f) f = none := by
  induction c with
  | nil => rfl
  | cons kv t ih =>
      by_cases hk : kv.1 = f
      · simp [cacheRemove, hk, ih]
      · simp [cacheRemove, hk, cacheGet, ih]

theorem cacheGet_remove_none (c : Cache) (q f : String)
    (h : cacheGet c f = none) : cacheGet (cacheRemove c q) f = none := by
  induction c with
  | nil => rfl
  | cons kv t ih =>
      simp only [cacheGet] at h
      by_cases hf : kv.1 = f
      · simp [hf] at h
      · have ht : cacheGet t f = none := by simpa [hf] using h
        by_cases hq : kv.1 = q
        · simp [cacheRemove, hq, ih ht]
        · simp [cacheRemove, hq, cacheGet, hf, ih ht]

theorem cacheGet_remove_ne (c : Cache) (q f : String) (h : f ≠ q) :
    cacheGet (cacheRemove c q) f = cacheGet c f := by
  induction c with
  | nil => rfl
  | cons kv t ih =>
      by_cases hq : kv.1 = q
      · have hf : kv.1 ≠ f := by rw [hq]; exact fun hh => h hh.symm
        simp [cacheRemove, hq, cacheGet, hf, ih, Ne.symm h]
      · simp [cacheRemove, hq, cacheGet, ih]

theorem cacheRemove_of_get_none (c : Cache) (f : String)
    (h : cacheGet c f = none) : cacheRemove c f = c := by
  induction c with
  | nil => rfl
  | cons kv t ih =>
      simp only [cacheGet] at h
      by_cases hf : kv.1 = f
      · simp [hf] at h
      · have ht : cacheGet t f = none := by simpa [hf] using h
        simp [cacheRemove, hf, ih ht]

theorem cacheRemove_idem (c : Cache) (f : String) :
    cacheRemove (cacheRemove c f) f = cacheRemove c f :=
  cacheRemove_of_get_none _ _ (cacheGet_remove_self c f)

theorem cacheGet_set_self (c : Cache) (k : String) (v : StatSnap) :
    cacheGet (cacheSet c k v) k = some v := by
  simp [cacheSet, cacheGet]

theorem cacheGet_set_ne (c : Cache) (k f : String) (v : StatSnap) (h : f ≠ k) :
    cacheGet (cacheSet c k v) f = cacheGet c f := by
  have hk : k ≠ f := fun hh => h hh.symm
  simp [cacheSet, cacheGet, hk, cacheGet_remove_ne c k f h]

theorem mem_removeStr (l : List String) (k q : String) :
    q ∈ removeStr l k ↔ q ∈ l ∧ q ≠ k := by
  induction l with
  | nil => simp [removeStr]
  | cons s t ih =>
      simp only [removeStr]
      by_cases hs : s = k
      · rw [if_pos hs]
        subst hs
        rw [ih]
        simp only [List.mem_cons]
        constructor
        · rintro ⟨hq, hne⟩; exact ⟨Or.inr hq, hne⟩
        · rintro ⟨hq | hq, hne⟩
          · exact absurd hq hne
          · exact ⟨hq, hne⟩
      · rw [if_neg hs]
        simp only [List.mem_cons, ih]
        constructor
        · rintro (rfl | ⟨hq, hne⟩)
          · exact ⟨Or.inl rfl, hs⟩
          · exact ⟨Or.inr hq, hne⟩
        · rintro ⟨hq | hq, hne⟩
          · exact Or.inl hq
          · exact Or.inr ⟨hq, hne⟩

theorem filter_idem {α : Type} (l : List α) (p : α → Bool) :
    (l.filter p).filter p = l.filter p :=
  List.filter_eq_self.mpr fun _ ha => (List.mem_filter.mp ha).2

/- Unfolding lemmas for loader_gone_file in the two index outcomes. -/

theorem loader_gone_file_eq_ok (w : FsWorld) (st : TokenState) (f : String)
    (h : w.replaceOk f = true) :
    loader_gone_file w st f =
      (⟨cacheRemove st.loaded f, st.index.filter fun o => o.origin != some f⟩,
       [Event.replaceAll f []]) := by
  simp [loader_gone_file, index_replace_all, h]

theorem loader_gone_file_eq_fail (w : FsWorld) (st : TokenState) (f : String)
    (h : w.replaceOk f = false) :
    loader_gone_file w st f = (st, [Event.replaceAll f []]) := by
  simp [loader_gone_file, index_replace_all, h]

/- Preservation and establishment of origin absence. -/

theorem gone_preserves (w : FsWorld) (st : TokenState) (q f : String)
    (h : originAbsent st f) : originAbsent (loader_gone_file w st q).1 f := by
  rcases h with ⟨hidx, hc⟩
  cases hok : w.replaceOk q with
  | false => rw [loader_gone_file_eq_fail w st q hok]; exact ⟨hidx, hc⟩
  | true =>
      rw [loader_gone_file_eq_ok w st q hok]
      refine ⟨?_, cacheGet_remove_none _ _ _ hc⟩
      intro o ho
      exact hidx o (List.mem_filter.mp ho).1

theorem gone_establishes (w : FsWorld) (st : TokenState) (f : String)
    (h : w.replaceOk f = true) : originAbsent (loader_gone_file w st f).1 f := by
  rw [loader_gone_file_eq_ok w st f h]
  refine ⟨?_, cacheGet_remove_self _ _⟩
  intro o ho
  have := (List.mem_filter.mp ho).2
  simpa [bne_iff_ne] using this

theorem load_file_preserves (w : FsWorld) (cfg : TokenCfg) (st : TokenState)
    (q : String) (sb : StatSnap) (f : String) (hne : q ≠ f)
    (h : originAbsent st f) :
    originAbsent (loader_load_file w cfg st q sb).st f := by
  rcases h with ⟨hidx, hc⟩
  cases hnec : loader_is_necessary st.loaded q sb with
  | false =>
      simp only [loader_load_file, hnec, Bool.not_false, if_true]
      exact ⟨hidx, hc⟩
  | true =>
      simp only [loader_load_file, hnec, Bool.not_true, Bool.false_eq_true, if_false]
      cases hp : w.parse q (loaderFlags cfg q sb) with
      | unrecognized => exact gone_preserves w st q f ⟨hidx, hc⟩
      | failure => exact gone_preserves w st q f ⟨hidx, hc⟩
      | success objs =>
          cases hok : w.replaceOk q with
          | false =>
              simp only [index_replace_all, hok, Bool.false_eq_true, if_false]
              exact ⟨hidx, hc⟩
          | true =>
              simp only [index_replace_all, hok, if_true, loader_was_loaded]
              refine ⟨?_, ?_⟩
              · intro o ho
                rcases List.mem_append.mp ho with hl | hr
                · exact hidx o (List.mem_filter.mp hl).1
                · rcases List.mem_map.mp hr with ⟨p, _, rfl⟩
                  intro heq
                  exact hne (Option.some.inj heq)
              · rw [cacheGet_set_ne st.loaded q f sb (Ne.symm hne)]
                exact hc

theorem load_if_file_preserves (w : FsWorld) (cfg : TokenCfg) (st : TokenState)
    (q f : String) (hne : q ≠ f) (h : originAbsent st f) :
    originAbsent (loader_load_if_file w cfg st q).st f := by
  cases hs : w.stat q with
  | error e =>
      simp only [loader_load_if_file, hs]
      exact gone_preserves w st q f h
  | ok sb =>
      cases hd : S_ISDIR sb.st_mode with
      | false =>
          simp only [loader_load_if_file, hs, hd, Bool.not_false, if_true]
          exact load_file_preserves w cfg st q sb f hne h
      | true =>
          simp only [loader_load_if_file, hs, hd, Bool.not_true,
            Bool.false_eq_true, if_false]
          exact gone_preserves w st q f h

theorem load_if_file_establishes (w : FsWorld) (cfg : TokenCfg)
    (st : TokenState) (f : String) (e : StatErr)
    (hs : w.stat f = Except.error e) (hok : w.replaceOk f = true) :
    originAbsent (loader_load_if_file w cfg st f).st f := by
  simp only [loader_load_if_file, hs]
  exact gone_establishes w st f hok

theorem goneLoop_preserves (w : FsWorld) (l : List String) :
    ∀ (st : TokenState) (f : String), originAbsent st f →
      originAbsent (goneLoop w st l).1 f := by
  induction l with
  | nil => intro st f h; simpa [goneLoop] using h
  | cons p rest ih =>
      intro st f h
      simp only [goneLoop]
      exact ih (loader_gone_file w st p).1 f (gone_preserves w st p f h)

theorem goneLoop_absent (w : FsWorld) (l : List String) :
    ∀ (st : TokenState) (f : String), f ∈ l → w.replaceOk f = true →
      originAbsent (goneLoop w st l).1 f := by
  induction l with
  | nil => intro st f h; cases h
  | cons p rest ih =>
      intro st f hmem hok
      simp only [goneLoop]
      by_cases hpf : p = f
      · subst hpf
        exact goneLoop_preserves w rest _ p (gone_establishes w st p hok)
      · rcases List.mem_cons.mp hmem with rfl | hf
        · exact absurd rfl hpf
        · exact ih (loader_gone_file w st p).1 f hf hok

theorem loadDirLoop_present_mem (w : FsWorld) (cfg : TokenCfg) (dir : String)
    (entries : List String) :
    ∀ (st : TokenState) (present : List String) (p : String), p ∈ present →
      (∀ n ∈ entries, p11_path_build dir n ≠ p) →
      p ∈ (loadDirLoop w cfg dir st present entries).2 := by
  induction entries with
  | nil => intro st present p hp _; simpa [loadDirLoop] using hp
  | cons name rest ih =>
      intro st present p hp hne
      simp only [loadDirLoop]
      apply ih
      · exact (mem_removeStr present (p11_path_build dir name) p).mpr
          ⟨hp, fun hh => hne name (List.mem_cons_self name rest) hh.symm⟩
      · intro n hn
        exact hne n (List.mem_cons_of_mem name hn)

/-- C2: for a directory scan with a previously-present set, once the listing
completes every previously-present path not seen among the listed entries has
all index objects of that origin removed and its cache entry removed. -/
theorem c2_unseen_present_paths_gone (w : FsWorld) (cfg : TokenCfg)
    (st : TokenState) (dir : String) (present entries : List String) (p : String)
    (hls : w.listdir dir = some entries)
    (hp : p ∈ present)
    (hunseen : ∀ n ∈ entries, p11_path_build dir n ≠ p)
    (hok : w.replaceOk p = true) :
    originAbsent (loader_load_directory w cfg st dir present).st p := by
  simp only [loader_load_directory, hls]
  exact goneLoop_absent w _ _ p
    (loadDirLoop_present_mem w cfg dir entries st present p hp hunseen) hok

/-- World for the C2 witness: `/d` lists one entry `x`; the stale present
path `/d/gone` is not among the built paths. -/
def wC2 : FsWorld where
  stat := fun _ => Except.error StatErr.enoent
  listdir := fun d => if d = "/d" then some ["x"] else none
  parse := fun _ _ => ParseResult.unrecognized
  replaceOk := fun _ => true

/-- State for the C2 witness. -/
def stC2 : TokenState :=
  ⟨[("/d/gone", sbFile0old)], [⟨some "/d/gone", false, 1⟩]⟩

/-- Witness for C2 at a concrete directory scan. -/
theorem c2_unseen_present_paths_gone_witness :
    originAbsent (loader_load_directory wC2 cfg0 stC2 "/d" ["/d/gone"]).st "/d/gone" :=
  c2_unseen_present_paths_gone wC2 cfg0 stC2 "/d" ["/d/gone"] ["x"] "/d/gone"
    (by decide) (by decide) (by decide) rfl

theorem fallbackLoop_preserves (w : FsWorld) (cfg : TokenCfg)
    (l : List String) (f : String) (e : StatErr)
    (hs : w.stat f = Except.error e) (hok : w.replaceOk f = true) :
    ∀ (st : TokenState), originAbsent st f →
      originAbsent (loadFallbackLoop w cfg st l).1.st f := by
  induction l with
  | nil => intro st h; simpa [loadFallbackLoop] using h
  | cons q rest ih =>
      intro st h
      simp only [loadFallbackLoop]
      apply ih
      by_cases hqf : q = f
      · subst hqf
        exact load_if_file_establishes w cfg st q e hs hok
      · exact load_if_file_preserves w cfg st q f hqf h

theorem fallbackLoop_absent (w : FsWorld) (cfg : TokenCfg)
    (l : List String) (f : String) (e : StatErr)
    (hs : w.stat f = Except.error e) (hok : w.replaceOk f = true) :
    ∀ (st : TokenState), f ∈ l →
      originAbsent (loadFallbackLoop w cfg st l).1.st f := by
  induction l with
  | nil => intro st h; cases h
  | cons q rest ih =>
      intro st hmem
      simp only [loadFallbackLoop]
      by_cases hqf : q = f
      · subst hqf
        exact fallbackLoop_preserves w cfg rest q e hs hok _
          (load_if_file_establishes w cfg st q e hs hok)
      · rcases List.mem_cons.mp hmem with rfl | hf
        · exact absurd rfl hqf
        · exact ih (loader_load_if_file w cfg st q).st hf

/-- C8 (amended): on the fallback branch (directory snapshot unchanged) no
previously-present diff is performed, but a previously-tracked file under the
directory that has been deleted still loses its index objects and cache
entry, because each tracked file is individually re-checked and a failed stat
leads to the gone treatment. -/
theorem c8_fallback_detects_deletions (w : FsWorld) (cfg : TokenCfg)
    (st : TokenState) (path : String) (sb : StatSnap) (f : String)
    (hstat : w.stat path = Except.ok sb)
    (hdir : S_ISDIR sb.st_mode = true)
    (hnec : loader_is_necessary st.loaded path sb = false)
    (hf : f ∈ presentOf st.loaded path)
    (hfs : w.stat f = Except.error StatErr.enoent)
    (hok : w.replaceOk f = true)
    (hne : f ≠ path) :
    originAbsent (loader_load_path w cfg st path).st f := by
  simp only [loader_load_path, hstat, hdir, hnec, Bool.false_eq_true, if_false,
    if_true, loader_was_loaded]
  have h := fallbackLoop_absent w cfg (presentOf st.loaded path) f StatErr.enoent
    hfs hok st hf
  exact ⟨h.1, by rw [cacheGet_set_ne _ path f sb hne]; exact h.2⟩

/-- World for C8: `/t` is an unchanged directory, the tracked file `/t/a`
has been deleted. -/
def wC8 : FsWorld where
  stat := fun p =>
    if p = "/t" then Except.ok sbDir0 else Except.error StatErr.enoent
  listdir := fun _ => none
  parse := fun _ _ => ParseResult.success [7]
  replaceOk := fun _ => true

/-- State for C8: the directory snapshot is cached unchanged and `/t/a` is
tracked with one index object. -/
def stC8 : TokenState :=
  ⟨[("/t", sbDir0), ("/t/a", sbFile0old)], [⟨some "/t/a", false, 5⟩]⟩

/-- C8 counterexample: with the directory root's snapshot unchanged, the
fallback branch is taken (`loader_is_necessary` of the root is false, and its
deleted tracked file is in the previously-present set with live index objects
and a cache entry), yet after the scan the file's index objects and its cache
entry are gone — refuting the claim that deletions are not detected on this
branch and that such a file keeps its objects and cache entry. -/
theorem c8_counterexample :
    loader_is_necessary stC8.loaded "/t" sbDir0 = false ∧
    S_ISDIR sbDir0.st_mode = true ∧
    "/t/a" ∈ presentOf stC8.loaded "/t" ∧
    (∃ o ∈ stC8.index, o.origin = some "/t/a") ∧
    cacheGet stC8.loaded "/t/a" ≠ none ∧
    originAbsent (loader_load_path wC8 cfg0 stC8 "/t").st "/t/a" := by
  decide

/-- Witness for the amended C8, applying it at the same concrete scan. -/
theorem c8_fallback_detects_deletions_witness :
    originAbsent (loader_load_path wC8 cfg0 stC8 "/t").st "/t/a" :=
  c8_fallback_detects_deletions wC8 cfg0 stC8 "/t" sbDir0 "/t/a"
    rfl (by decide) (by decide) (by decide) rfl rfl (by decide)

theorem loader_is_necessary_eq_false_iff (c : Cache) (f : String) (sb : StatSnap) :
    loader_is_necessary c f sb = false ↔
      ∃ last, cacheGet c f = some last ∧ last.st_mode = sb.st_mode ∧
        last.st_mtime = sb.st_mtime ∧ last.st_size = sb.st_size := by
  unfold loader_is_necessary
  cases hg : cacheGet c f with
  | none =>
      constructor
      · intro h; cases h
      · rintro ⟨last, hl, -⟩; cases hl
  | some last =>
      simp only [Bool.or_eq_false_iff, bne_eq_false_iff_eq, Option.some.injEq]
      constructor
      · rintro ⟨⟨h1, h2⟩, h3⟩; exact ⟨last, rfl, h1.symm, h2.symm, h3.symm⟩
      · rintro ⟨last', hl, h1, h2, h3⟩
        cases hl
        exact ⟨⟨h1.symm, h2.symm⟩, h3.symm⟩

/-- C3: ingesting a path with a cached stat snapshot is a no-op — state
untouched, zero returned, no events, hence no parser invocation — exactly
when the current mode, mtime and size all equal the cached snapshot, and a
path with no cached entry is always considered in need of loading. -/
theorem c3_unchanged_snapshot_noop (w : FsWorld) (cfg : TokenCfg)
    (st : TokenState) (f : String) (sb : StatSnap) :
    (loader_load_file w cfg st f sb = ⟨st, 0, [], []⟩ ↔
      loader_is_necessary st.loaded f sb = false) ∧
    (loader_is_necessary st.loaded f sb = false ↔
      ∃ last, cacheGet st.loaded f = some last ∧ last.st_mode = sb.st_mode ∧
        last.st_mtime = sb.st_mtime ∧ last.st_size = sb.st_size) ∧
    (cacheGet st.loaded f = none → loader_is_necessary st.loaded f sb = true) := by
  refine ⟨?_, loader_is_necessary_eq_false_iff st.loaded f sb, ?_⟩
  · constructor
    · intro heq
      cases hnec : loader_is_necessary st.loaded f sb with
      | false => rfl
      | true =>
          exfalso
          simp only [loader_load_file, hnec, Bool.not_true, Bool.false_eq_true,
            if_false] at heq
          have hevs := congrArg LoadR.evs heq
          simp at hevs
    · intro hnec
      simp [loader_load_file, hnec]
  · intro hg
    unfold loader_is_necessary
    rw [hg]

/-- World for the C3 witness. -/
def wC3 : FsWorld where
  stat := fun _ => Except.error StatErr.enoent
  listdir := fun _ => none
  parse := fun _ _ => ParseResult.success [7]
  replaceOk := fun _ => true

/-- State for the C3 witness: `/a` cached with its current snapshot. -/
def stC3 : TokenState := ⟨[("/a", sbFile0)], []⟩

/-- Witness for C3: at the cached, unchanged snapshot the load is a no-op. -/
theorem c3_unchanged_snapshot_noop_witness :
    loader_load_file wC3 cfg0 stC3 "/a" sbFile0 = ⟨stC3, 0, [], []⟩ :=
  (c3_unchanged_snapshot_noop wC3 cfg0 stC3 "/a" sbFile0).1.mpr
    ((c3_unchanged_snapshot_noop wC3 cfg0 stC3 "/a" sbFile0).2.1.mpr
      ⟨sbFile0, by decide, rfl, rfl, rfl⟩)

/-- C5: when a necessary file parses successfully, a failing index
replacement yields return 0, an unchanged cache and the failure message,
while a succeeding replacement yields return 1 and the cache entry set to the
new snapshot; and return 1 happens only with a successful parse and a
successful index replacement. -/
theorem c5_cache_update_iff_index_success (w : FsWorld) (cfg : TokenCfg)
    (st : TokenState) (f : String) (sb : StatSnap) :
    (∀ objs, loader_is_necessary st.loaded f sb = true →
      w.parse f (loaderFlags cfg f sb) = ParseResult.success objs →
      ((w.replaceOk f = false →
          (loader_load_file w cfg st f sb).ret = 0 ∧
          (loader_load_file w cfg st f sb).st.loaded = st.loaded ∧
          (loader_load_file w cfg st f sb).msgs = [LogMsg.couldntLoadFile f]) ∧
       (w.replaceOk f = true →
          (loader_load_file w cfg st f sb).ret = 1 ∧
          cacheGet (loader_load_file w cfg st f sb).st.loaded f = some sb))) ∧
    ((loader_load_file w cfg st f sb).ret = 1 →
      loader_is_necessary st.loaded f sb = true ∧
      (∃ objs, w.parse f (loaderFlags cfg f sb) = ParseResult.success objs) ∧
      w.replaceOk f = true) := by
  constructor
  · intro objs hnec hp
    constructor
    · intro hok
      simp [loader_load_file, hnec, hp, index_replace_all, hok]
    · intro hok
      simp [loader_load_file, hnec, hp, index_replace_all, hok,
        loader_was_loaded, cacheGet_set_self]
  · intro h1
    cases hnec : loader_is_necessary st.loaded f sb with
    | false =>
        exfalso
        simp [loader_load_file, hnec] at h1
    | true =>
        refine ⟨rfl, ?_⟩
        cases hp : w.parse f (loaderFlags cfg f sb) with
        | unrecognized =>
            exfalso; simp [loader_load_file, hnec, hp] at h1
        | failure =>
            exfalso; simp [loader_load_file, hnec, hp] at h1
        | success objs =>
            cases hok : w.replaceOk f with
            | false =>
                exfalso
                simp [loader_load_file, hnec, hp, index_replace_all, hok] at h1
            | true => exact ⟨⟨objs, rfl⟩, rfl⟩

/-- World for the C5 witness: parse succeeds but the index replacement fails. -/
def wC5 : FsWorld where
  stat := fun _ => Except.error StatErr.enoent
  listdir := fun _ => none
  parse := fun _ _ => ParseResult.success [7]
  replaceOk := fun _ => false

/-- State for the C5 witness: `/t/a` untracked, so loading is necessary. -/
def stC5 : TokenState := ⟨[], []⟩

/-- Witness for C5 at a concrete failing index replacement. -/
theorem c5_cache_update_iff_index_success_witness :
    (loader_load_file wC5 cfg0 stC5 "/t/a" sbFile0).ret = 0 ∧
    (loader_load_file wC5 cfg0 stC5 "/t/a" sbFile0).st.loaded = stC5.loaded ∧
    (loader_load_file wC5 cfg0 stC5 "/t/a" sbFile0).msgs =
      [LogMsg.couldntLoadFile "/t/a"] :=
  ((c5_cache_update_iff_index_success wC5 cfg0 stC5 "/t/a" sbFile0).1 [7]
    (by decide) rfl).1 rfl

/-- C7: reload with no origin attribute is a no-op; an origin whose stat
fails with ENOENT has its index objects and cache entry removed; an
accessible origin is handed to the single-file ingestion routine directly
(which itself embeds the snapshot-unchanged skip of §4.4 step 1). -/
theorem c7_reload_origin_cases (w : FsWorld) (cfg : TokenCfg) (st : TokenState)
    (attrs : List (Nat × String)) :
    (p11_attrs_find attrs CKA_X_ORIGIN = none →
      p11_token_reload w cfg st attrs = (st, [], [])) ∧
    (∀ origin, p11_attrs_find attrs CKA_X_ORIGIN = some origin →
      w.stat origin = Except.error StatErr.enoent → w.replaceOk origin = true →
      originAbsent (p11_token_reload w cfg st attrs).1 origin) ∧
    (∀ origin sb, p11_attrs_find attrs CKA_X_ORIGIN = some origin →
      w.stat origin = Except.ok sb →
      p11_token_reload w cfg st attrs =
        ((loader_load_file w cfg st origin sb).st,
         (loader_load_file w cfg st origin sb).evs,
         (loader_load_file w cfg st origin sb).msgs)) := by
  refine ⟨?_, ?_, ?_⟩
  · intro h
    simp [p11_token_reload, h]
  · intro origin h hs hok
    simp only [p11_token_reload, h, hs, if_pos rfl]
    exact gone_establishes w st origin hok
  · intro origin sb h hs
    simp [p11_token_reload, h, hs]

/-- World for the C7 witness: the origin file is missing. -/
def wC7 : FsWorld where
  stat := fun _ => Except.error StatErr.enoent
  listdir := fun _ => none
  parse := fun _ _ => ParseResult.unrecognized
  replaceOk := fun _ => true

/-- State for the C7 witness: `/o` tracked with one index object. -/
def stC7 : TokenState := ⟨[("/o", sbFile0old)], [⟨some "/o", false, 9⟩]⟩

/-- Witness for C7 at a concrete gone origin. -/
theorem c7_reload_origin_cases_witness :
    originAbsent (p11_token_reload wC7 cfg0 stC7 [(2, "/o")]).1 "/o" :=
  (c7_reload_origin_cases wC7 cfg0 stC7 [(2, "/o")]).2.1 "/o" rfl rfl rfl

/-- C9: loader_gone_file is idempotent on the token state, and on a path
that was never tracked it leaves the cache unchanged while the index holds no
objects with that origin. -/
theorem c9_gone_file_idempotent_total (w : FsWorld) (st : TokenState)
    (f : String) :
    ((loader_gone_file w (loader_gone_file w st f).1 f).1 =
      (loader_gone_file w st f).1) ∧
    (cacheGet st.loaded f = none → w.replaceOk f = true →
      (loader_gone_file w st f).1.loaded = st.loaded ∧
      ∀ o ∈ (loader_gone_file w st f).1.index, o.origin ≠ some f) := by
  constructor
  · cases hok : w.replaceOk f with
    | false => simp [loader_gone_file_eq_fail w _ f hok]
    | true =>
        have hrw : ∀ s : TokenState, loader_gone_file w s f =
            (⟨cacheRemove s.loaded f, s.index.filter fun o => o.origin != some f⟩,
             [Event.replaceAll f []]) :=
          fun s => loader_gone_file_eq_ok w s f hok
        simp [hrw, cacheRemove_idem, filter_idem]
  · intro hget hok
    rw [loader_gone_file_eq_ok w st f hok]
    refine ⟨cacheRemove_of_get_none _ _ hget, ?_⟩
    intro o ho
    have hpred := (List.mem_filter.mp ho).2
    simpa [bne_iff_ne] using hpred

/-- World for the C9 witness. -/
def wC9 : FsWorld where
  stat := fun _ => Except.error StatErr.enoent
  listdir := fun _ => none
  parse := fun _ _ => ParseResult.unrecognized
  replaceOk := fun _ => true

/-- State for the C9 witness: `/y` tracked, `/z` never tracked. -/
def stC9 : TokenState := ⟨[("/y", sbFile0)], [⟨some "/y", false, 1⟩]⟩

/-- Witness for C9 on the never-tracked path `/z`. -/
theorem c9_gone_file_idempotent_total_witness :
    (loader_gone_file wC9 stC9 "/z").1.loaded = stC9.loaded ∧
    ∀ o ∈ (loader_gone_file wC9 stC9 "/z").1.index, o.origin ≠ some "/z" :=
  (c9_gone_file_idempotent_total wC9 stC9 "/z").2 (by decide) rfl
